import Mathlib

/-!
# Verification of the idog KGP encoder against its specification

Shallow embedding of the idog terminal-graphics encoder (Python package
`idog`): the KGP frame encoder (`encoder.py`), the transmission mediums
(`medium.py`), the capability query engine (`query.py`) and the Unicode
placeholder generator (`unicode.py`), together with proofs of the spec's
testable properties.

Conventions:
* Python strings are Lean `String`s; payload chunking is carried out on the
  underlying `List Char` (Python slicing `payload[a:b]` becomes
  `(payload.toList.drop a).take (b - a)`).
* Machine-level effects (shared-memory namespace, terminal mode, byte reads)
  are modelled by explicit state passing.
* Fallible code returns `Except`.
-/

namespace Idog

/-! ## Frame encoder (`encoder.py`, `KGPEncoderBase`)

`_format_KGP` builds frames with Python f-strings
`f"\033_G{options_str};{payload}\033\\"` etc.; we factor the common envelope
into `mkFrame`.  `\x1b` is ESC (`\033`). -/

/-- The APC frame envelope: `ESC _ G <options> ; <chunk> ESC \`. -/
def mkFrame (options_str chunk : String) : String :=
  "\x1b_G" ++ options_str ++ ";" ++ chunk ++ "\x1b\\"

/-- The continuation frames of `KGPEncoderBase._format_KGP` (`encoder.py`
lines 83-88): the Python loop `for offset in range(chunk_size, len(payload),
chunk_size)` over the payload remainder `r`; each iteration emits
`f"\033_Gm={m};{chunk}\033\\"` with `m = 1` iff more payload follows.
`(ch :: rest).drop chunk_size` is written `rest.drop (chunk_size - 1)` so
that each step consumes at least one character; the two agree whenever
`chunk_size > 0`, and `_format_KGP` is only reached with a positive chunk
size (`construct_KGP` rejects the rest).  The `fuel` argument only drives
structural recursion; any `fuel ≥ r.length` gives the same result
(`restFramesAux_fuel`). -/
def restFramesAux (chunk_size : Nat) : Nat → List Char → List String
  | _, [] => []
  | 0, _ :: _ => []
  | fuel + 1, ch :: rest =>
    mkFrame ("m=" ++ (if chunk_size < (ch :: rest).length then "1" else "0"))
        ((ch :: rest).take chunk_size).asString
      :: restFramesAux chunk_size fuel (rest.drop (chunk_size - 1))

/-- The continuation-frame loop of `KGPEncoderBase._format_KGP`. -/
def restFrames (chunk_size : Nat) (r : List Char) : List String :=
  restFramesAux chunk_size r.length r

/-- `KGPEncoderBase._format_KGP` (`encoder.py` lines 77-89). -/
def format_KGP (payload : String) (options_str : String) (chunk_size : Nat) :
    List String :=
  if payload.length ≤ chunk_size then
    [mkFrame options_str payload]
  else
    mkFrame (options_str ++ ",m=1") (payload.toList.take chunk_size).asString
      :: restFrames chunk_size (payload.toList.drop chunk_size)

/-- `KGPEncoderBase.construct_KGP` (`encoder.py` lines 113-121): rejects
`chunk_size <= 0` with `ValueError("Chunk size must be a positive integer.")`
before the frames are built; the option string and payload (produced inside
the source function by `_gen_options` / `construct_payload`) enter here as
parameters. -/
def construct_KGP (options_str payload : String) (chunk_size : Int) :
    Except String (List String) :=
  if chunk_size ≤ 0 then
    .error "Chunk size must be a positive integer."
  else
    .ok (format_KGP payload options_str chunk_size.toNat)

/-! ### Frame observers

Functions a decoder would use to take a frame apart again: the chunk is the
text strictly between the first `;` and the closing `ESC \`, the options are
the text between the `ESC _ G` opener and the first `;`. -/

/-- The chunk carried by a frame: drop everything up to and including the
first `;`, then strip the two closing bytes `ESC \`. -/
def frameChunk (f : String) : String :=
  ((((f.toList.dropWhile (fun ch => ch ≠ ';')).drop 1).dropLast).dropLast).asString

/-- The option text of a frame: drop the three opener bytes `ESC _ G`, then
take everything before the first `;`. -/
def frameOptions (f : String) : String :=
  ((f.toList.drop 3).takeWhile (fun ch => ch ≠ ';')).asString

/-- The value of a trailing `m=` key of an option string, if any: the frames
produced by `_format_KGP` always put `m` last. -/
def mFlagOfOpts (l : List Char) : Option Char :=
  match l.reverse with
  | d :: '=' :: 'm' :: _ => some d
  | _ => none

/-- The `m` continuation flag carried by a frame, if any. -/
def frameMFlag (f : String) : Option Char :=
  mFlagOfOpts (frameOptions f).toList

/-! ## Unicode placeholder generator (`unicode.py`, `KGPEncoderUnicode`) -/

/-- Modelled from the spec: `idog.constants.KGP_PLACEHOLDER` is imported by
`unicode.py` but `constants.py` is not under `src/`; the spec's glossary
describes it as the reserved placeholder glyph (the Kitty protocol uses
U+10EEEE).  Its exact value is immaterial to the claims proved here. -/
def KGP_PLACEHOLDER : String := (Char.ofNat 0x10EEEE).toString

/-- Modelled from the spec: `idog.constants.KGP_DIACRITICS` is imported by
`unicode.py` but `constants.py` is not under `src/`; the spec describes it as
"a fixed ordered table" of combining diacritics indexed by row/column.  Its
exact entries are immaterial to the claims proved here; four genuine
combining characters stand in for the table. -/
def KGP_DIACRITICS : List Char :=
  [Char.ofNat 0x305, Char.ofNat 0x30D, Char.ofNat 0x30E, Char.ofNat 0x310]

/-- `KGPEncoderUnicode.construct_unicode_placeholders` (`unicode.py` lines
18-36).  Each of the `display_rows` lines starts with the 24-bit true-color
foreground escape `f"\033[38;2;{(id>>16)&0xFF};{(id>>8)&0xFF};{id&0xFF}m"`,
then the placeholder glyph with a row and a column diacritic, then
`display_cols - 1` bare placeholder glyphs, and ends with `"\033[39m"`.
Diacritic indices are assumed pre-validated by the caller (spec §9), so
out-of-table indices are read with a default. -/
def construct_unicode_placeholders (image_id display_rows display_cols : Nat) :
    List String :=
  let image_id_str :=
    "\x1b[38;2;" ++ toString ((image_id >>> 16) &&& 0xFF) ++ ";"
      ++ toString ((image_id >>> 8) &&& 0xFF) ++ ";"
      ++ toString (image_id &&& 0xFF) ++ "m"
  (List.range display_rows).map (fun i =>
    image_id_str
      ++ (KGP_PLACEHOLDER ++ (KGP_DIACRITICS.getD i ' ').toString
            ++ (KGP_DIACRITICS.getD 0 ' ').toString)
      ++ String.join (List.replicate (display_cols - 1) KGP_PLACEHOLDER)
      ++ "\x1b[39m")

/-! ## Transmission mediums (`medium.py`)

The shared-memory namespace (the OS state behind
`multiprocessing.shared_memory`) is a partial map from segment names to
segments.  Concurrent interference from other processes — the reason the
source loops — is modelled by adversary functions applied at the points
where the OS can be observed to have changed. -/

/-- A shared-memory segment: its capacity and current bytes. -/
structure Seg where
  size : Nat
  data : List Nat
deriving DecidableEq

/-- The shared-memory namespace: name → segment. -/
def ShmSys : Type := String → Option Seg

/-- Create or replace the segment under `n`. -/
def shmSet (sys : ShmSys) (n : String) (seg : Seg) : ShmSys :=
  fun k => if k = n then some seg else sys k

/-- Unlink the segment under `n`. -/
def shmErase (sys : ShmSys) (n : String) : ShmSys :=
  fun k => if k = n then none else sys k

/-- `KGPMediumSharedMemory._construct_memory_name` (`medium.py` lines 72-73):
`f"idog_{self.image_id}"`. -/
def shm_name (image_id : Nat) : String := "idog_" ++ toString image_id

/-- Outcome of one iteration of the creation loop: `done` ends the loop
(Python `break`), `retry` goes round again (Python `continue`). -/
inductive AttemptOut where
  | done (sys : ShmSys)
  | retry (sys : ShmSys)

/-- One iteration of the `for _ in range(2)` loop of
`KGPMediumSharedMemory.__init__` (`medium.py` lines 80-109):
try an exclusive create of capacity `len(data)` (write `data`, break);
on `FileExistsError` open the existing segment (`advOpen` is the concurrent
activity between the failed create and the open — `FileNotFoundError` means
it was raced away, continue); a segment with capacity below `len(data)` is
stale — close, unlink and continue; otherwise reuse it, overwriting its
first `len(data)` bytes.  (`self.shm.buf is None` never holds for a mapped
segment and is not modelled.) -/
def shmAttempt (name : String) (data : List Nat) (advOpen : ShmSys → ShmSys)
    (sys : ShmSys) : AttemptOut :=
  match sys name with
  | none => .done (shmSet sys name ⟨data.length, data⟩)
  | some _ =>
    let sys1 := advOpen sys
    match sys1 name with
    | none => .retry sys1
    | some seg =>
      if seg.size < data.length then
        .retry (shmErase sys1 name)
      else
        .done (shmSet sys1 name ⟨seg.size, data ++ seg.data.drop data.length⟩)

/-- `KGPMediumSharedMemory.__init__` (`medium.py` lines 75-113): the bounded
two-attempt loop; exhausting both attempts raises
`KGPMediumCreationError` (the `for`-`else` at lines 110-111), modelled as
`Except.error`.  `adv1`/`adv2` are the concurrent activity observed at the
start of each attempt, `advO1`/`advO2` the activity between a failed
exclusive create and the subsequent open; a run without interference takes
all four to be `id`. -/
def sharedMemoryInit (image_id : Nat) (data : List Nat)
    (adv1 advO1 adv2 advO2 : ShmSys → ShmSys) (sys : ShmSys) :
    Except Unit ShmSys :=
  let name := shm_name image_id
  match shmAttempt name data advO1 (adv1 sys) with
  | .done s => .ok s
  | .retry s =>
    match shmAttempt name data advO2 (adv2 s) with
    | .done s₂ => .ok s₂
    | .retry _ => .error ()

/-! ## Medium factory and encoder fallback (`medium.py`, `encoder.py`) -/

/-- The three concrete `KGPMedium` subclasses. -/
inductive MediumKind where
  | direct | shared | tempfile
deriving DecidableEq

/-- Whether the OS lets shared-memory / temp-file creation succeed;
`KGPMediumDirect` is pure computation and cannot raise
`KGPMediumCreationError`. -/
structure MediumEnv where
  shmFails : Bool
  tmpFails : Bool

/-- `KGPMedium.create` (`medium.py` lines 36-45): dispatch on the medium
identifier; any name outside `"d"`/`"s"`/`"t"` raises
`KGPMediumCreationError("Unsupported transmission medium: ...")`, and the
`"s"`/`"t"` constructors raise the same error class when the OS fails
(`medium.py` line 111 resp. filesystem errors). -/
def KGPMedium_create (env : MediumEnv) (medium : String) :
    Except Unit MediumKind :=
  if medium = "d" then .ok .direct
  else if medium = "s" then
    (if env.shmFails then .error () else .ok .shared)
  else if medium = "t" then
    (if env.tmpFails then .error () else .ok .tempfile)
  else .error ()

/-- `KGPEncoderBase._init_medium` (`encoder.py` lines 56-75), abstracted over
the behaviour `create` of `KGPMedium.create` in the ambient environment:
on `KGPMediumCreationError` retry once with the direct medium `"d"`; a
second `KGPMediumCreationError` is re-raised as a fatal `RuntimeError`.
The second component records the list of attempted medium names in order. -/
def init_medium (create : String → Except Unit MediumKind) (medium : String) :
    Except Unit MediumKind × List String :=
  match create medium with
  | .ok m => (.ok m, [medium])
  | .error _ =>
    match create "d" with
    | .ok m => (.ok m, [medium, "d"])
    | .error _ => (.error (), [medium, "d"])

/-! ## Capability query engine (`query.py`, `KGPQuery`)

The controlling terminal is modelled by whether a tty handle is available
(`utils.atty_fd`), the saved `termios` local-flag word, and the scripted
sequence of events the `select`/`os.read` loop will observe. -/

/-- One observation of the read loop (`query.py` lines 39-55): `timeout`
is `select` reporting no data, `eof` is `os.read` returning `b""`, `rerr`
is `os.read` raising, and `byte c` is one received byte. -/
inductive ReadEvent where
  | timeout | eof | rerr | byte (c : Char)
deriving DecidableEq

/-- The terminal a probe talks to. -/
structure Terminal where
  hasTTY : Bool
  mode : Nat
  events : List ReadEvent

/-- `new_settings[3] = new_settings[3] & ~termios.ICANON & ~termios.ECHO`
(`query.py` line 32): clear `ICANON` (0x2) and `ECHO` (0x8) in the
local-flag word. -/
def rawOf (lflag : Nat) : Nat := lflag &&& 0xFFFFFFF5

/-- The read loop of `KGPQuery._do_query` (`query.py` lines 38-55): read one
byte at a time, append it to the response, test the success pattern after
every byte (sticky `success = True`, the loop does not stop), stop on a
fence match, a timeout, or end of stream; a raising `os.read` aborts the
loop with an exception (`Except.error`).  An exhausted script is a terminal
that sends nothing more, i.e. a timeout. -/
def queryLoop (expected fence : String → Bool) :
    List ReadEvent → String → Bool → Except Unit Bool
  | [], _, success => .ok success
  | .timeout :: _, _, success => .ok success
  | .eof :: _, _, success => .ok success
  | .rerr :: _, _, _ => .error ()
  | .byte c :: rest, response, success =>
    let response₁ := response.push c
    let success₁ := success || expected response₁
    if fence response₁ then .ok success₁
    else queryLoop expected fence rest response₁ success₁

/-- `KGPQuery._do_query` (`query.py` lines 15-65).  Returns the boolean
result together with the sequence of `termios.tcsetattr` mode writes: none
when no tty is available (the probe answers `False` at once), otherwise the
raw mode on entry and — in the `finally` block, hence on success, timeout,
fence match and exception alike — the saved pre-probe mode.  An exception
inside the loop is swallowed (`except Exception`, line 60) and the function
falls through to `return False`. -/
def do_query (t : Terminal) (expected fence : String → Bool) :
    Bool × List Nat :=
  if t.hasTTY then
    match queryLoop expected fence t.events "" false with
    | .ok success => (success, [rawOf t.mode, t.mode])
    | .error _ => (false, [rawOf t.mode, t.mode])
  else
    (false, [])

/-- `expected_response` of `query_transmission_medium_support` (`query.py`
line 98): the literal pattern `\033_Gi=<image id>;OK\033\\`. -/
def expectedPattern (image_id : Nat) : String :=
  "\x1b_Gi=" ++ toString image_id ++ ";OK\x1b\\"

/-- `expected_response.search(response)`: the pattern has no regex
metacharacters, so a match is a substring occurrence. -/
def expectedMatch (image_id : Nat) (s : String) : Bool :=
  decide ((expectedPattern image_id).toList <:+: s.toList)

/-- Tail of the fence regex `\033\[\?[0-9;]*c` after the literal `\033[?`:
zero or more digits or semicolons, then `c`.  (`c` is neither a digit nor a
semicolon, so the match is deterministic.) -/
def fenceTail : List Char → Bool
  | [] => false
  | ch :: rest =>
    if ch = 'c' then true
    else if ch.isDigit || ch = ';' then fenceTail rest
    else false

/-- Whether the fence regex matches at the start of `l`: the literal
`\033[?` followed by a `fenceTail` match. -/
def fenceAt : List Char → Bool
  | a :: b :: q :: rest => a == '\x1b' && b == '[' && q == '?' && fenceTail rest
  | _ => false

/-- `fence_response.search(response)` (`query.py` line 100): the regex
`\033\[\?[0-9;]*c` matches somewhere in `s`. -/
def fenceMatch (s : String) : Bool :=
  s.toList.tails.any fenceAt

/-- `KGPQuery._mock_data` (`query.py` lines 67-76) raises `ValueError` for
any format outside `"32"`/`"24"`/`"100"`; only which formats succeed is
relevant here. -/
def mockDataOk (format : String) : Bool :=
  format == "32" || format == "24" || format == "100"

/-- Modelled from the spec: `KGPMedium.medium_options`, called at
`query.py` line 97 but not defined under `src/` — the query frame "built
like a transmit frame" (spec §4.4) carries the medium identifier key `t=`
and the compression flag `o=z` when the medium requests it (spec §4.3). -/
def medium_options (m : MediumKind) : String :=
  match m with
  | .direct => ",t=d,o=z"
  | .shared => ",t=s"
  | .tempfile => ",t=t"

/-- The query frame of `query_transmission_medium_support` (`query.py` line
97) with the 1×1 mock image: what `_do_query` writes to the terminal.  The
result of a probe does not depend on it (the terminal's replies are part of
the `Terminal` model), so it is recorded for fidelity only. -/
def query_code (m : MediumKind) (format payload : String) : String :=
  "\x1b_Gs=1,v=1,a=q,f=" ++ format ++ medium_options m ++ ";" ++ payload
    ++ "\x1b\\"

/-- `KGPQuery.query_transmission_medium_support` (`query.py` lines 89-107):
build mock data (`ValueError` for an unknown format), create the medium
(`KGPMediumCreationError` for an unknown name or a failing OS), send the
query followed by the fence and run `_do_query`; every exception on the way
is caught (`query.py` lines 102-104) and answered with `False`.  The
probed image id is `random_ID(0xFFFFFF)` in the source and a parameter
here. -/
def query_transmission_medium_support (menv : MediumEnv) (t : Terminal)
    (medium format : String) (image_id : Nat) : Bool :=
  if mockDataOk format then
    match KGPMedium_create menv medium with
    | .ok _ => (do_query t (expectedMatch image_id) fenceMatch).1
    | .error _ => false
  else false

/-- The terminal-identification environment signals read by
`KGPQuery.query_unicode_placeholder_support` (`query.py` line 84). -/
structure QEnv where
  kittyPid : Bool
  ghosttyFeatures : Bool

/-- `KGPQuery.query_support` (`query.py` lines 78-80). -/
def query_support (menv : MediumEnv) (t : Terminal) (image_id : Nat) : Bool :=
  query_transmission_medium_support menv t "d" "24" image_id

/-- `KGPQuery.query_unicode_placeholder_support` (`query.py` lines 82-86). -/
def query_unicode_placeholder_support (env : QEnv) (menv : MediumEnv)
    (t : Terminal) (image_id : Nat) : Bool :=
  if env.kittyPid || env.ghosttyFeatures then
    query_support menv t image_id
  else false

/-- `KGPQuery.query_all` (`query.py` lines 109-143): the fixed probe
battery.  Each probe talks to the terminal afresh (`term medium format`)
with a fresh random image id (`ids medium format`); `tU`/`idU` serve the
dedicated Unicode-placeholder probe. -/
def query_all (env : QEnv) (menv : MediumEnv) (tU : Terminal) (idU : Nat)
    (term : String → String → Terminal) (ids : String → String → Nat) :
    List (String × Bool) :=
  let q := fun (medium format : String) =>
    query_transmission_medium_support menv (term medium format) medium format
      (ids medium format)
  [("Unicode Placeholders", query_unicode_placeholder_support env menv tU idU),
   ("Direct Transmission (32bit)", q "d" "32"),
   ("Direct Transmission (24bit)", q "d" "24"),
   ("Direct Transmission (PNG)", q "d" "100"),
   ("Shared Memory Transmission (32bit)", q "s" "32"),
   ("Shared Memory Transmission (24bit)", q "s" "24"),
   ("Shared Memory Transmission (PNG)", q "s" "100"),
   ("Temporary File Transmission (32bit)", q "t" "32"),
   ("Temporary File Transmission (24bit)", q "t" "24"),
   ("Temporary File Transmission (PNG)", q "t" "100"),
   ("File Transmission (32bit)", q "f" "32"),
   ("File Transmission (24bit)", q "f" "24"),
   ("File Transmission (PNG)", q "f" "100")]

/-- The response snapshots the read loop tests the success pattern against:
after each received byte, up to and including the byte on which the fence
fires, the timeout/EOF that ends the loop, or a read error. -/
def responses (fence : String → Bool) :
    List ReadEvent → String → List String
  | [], _ => []
  | .timeout :: _, _ => []
  | .eof :: _, _ => []
  | .rerr :: _, _ => []
  | .byte c :: rest, r =>
    let r₁ := r.push c
    if fence r₁ then [r₁] else r₁ :: responses fence rest r₁

/-! ## Frame-encoder lemmas -/

theorem restFramesAux_congr (c : Nat) :
    ∀ (f₁ f₂ : Nat) (r : List Char), r.length ≤ f₁ → r.length ≤ f₂ →
      restFramesAux c f₁ r = restFramesAux c f₂ r := by
  intro f₁
  induction f₁ with
  | zero =>
    intro f₂ r h₁ _
    have : r = [] := List.length_eq_zero.mp (Nat.le_zero.mp h₁)
    subst this
    cases f₂ <;> rfl
  | succ g ih =>
    intro f₂ r h₁ h₂
    match r, f₂ with
    | [], f₂ => cases f₂ <;> rfl
    | ch :: rest, 0 => simp at h₂
    | ch :: rest, f + 1 =>
      simp only [restFramesAux]
      congr 1
      apply ih
      · simp only [List.length_drop]
        simp only [List.length_cons] at h₁
        omega
      · simp only [List.length_drop]
        simp only [List.length_cons] at h₂
        omega

/-- The loop equation of the continuation frames. -/
theorem restFrames_cons (c : Nat) (ch : Char) (rest : List Char) :
    restFrames c (ch :: rest) =
      mkFrame ("m=" ++ (if c < (ch :: rest).length then "1" else "0"))
          ((ch :: rest).take c).asString
        :: restFrames c (rest.drop (c - 1)) := by
  show restFramesAux c (ch :: rest).length (ch :: rest) = _
  simp only [List.length_cons, restFramesAux]
  congr 1
  exact restFramesAux_congr c rest.length (rest.drop (c - 1)).length
    (rest.drop (c - 1)) (by simp only [List.length_drop]; omega) le_rfl

theorem takeWhile_ne_semi (l₁ l₂ : List Char) (h : ';' ∉ l₁) :
    (l₁ ++ ';' :: l₂).takeWhile (fun ch => ch ≠ ';') = l₁ := by
  induction l₁ with
  | nil =>
    rw [List.nil_append]
    exact List.takeWhile_cons_of_neg (by decide)
  | cons a l ih =>
    simp only [List.mem_cons, not_or] at h
    rw [List.cons_append,
      List.takeWhile_cons_of_pos
        (by simp only [ne_eq, decide_eq_true_eq]; exact fun hh => h.1 hh.symm),
      ih h.2]

theorem dropWhile_ne_semi (l₁ l₂ : List Char) (h : ';' ∉ l₁) :
    (l₁ ++ ';' :: l₂).dropWhile (fun ch => ch ≠ ';') = ';' :: l₂ := by
  induction l₁ with
  | nil =>
    rw [List.nil_append]
    exact List.dropWhile_cons_of_neg (by decide)
  | cons a l ih =>
    simp only [List.mem_cons, not_or] at h
    rw [List.cons_append,
      List.dropWhile_cons_of_pos
        (by simp only [ne_eq, decide_eq_true_eq]; exact fun hh => h.1 hh.symm),
      ih h.2]

theorem mkFrame_data (o ch : String) :
    (mkFrame o ch).data =
      '\x1b' :: '_' :: 'G' :: (o.data ++ ';' :: (ch.data ++ ['\x1b', '\\'])) := by
  simp [mkFrame]

theorem frameChunk_mkFrame (o ch : String) (h : ';' ∉ o.data) :
    frameChunk (mkFrame o ch) = ch := by
  unfold frameChunk
  simp only [String.toList]
  rw [mkFrame_data]
  rw [List.dropWhile_cons_of_pos (by decide), List.dropWhile_cons_of_pos (by decide),
    List.dropWhile_cons_of_pos (by decide)]
  rw [dropWhile_ne_semi _ _ h]
  rw [List.drop_succ_cons, List.drop_zero]
  rw [show ch.data ++ ['\x1b', '\\'] = (ch.data ++ ['\x1b']) ++ ['\\'] by simp]
  rw [List.dropLast_concat, List.dropLast_concat]
  exact rfl

theorem frameOptions_mkFrame (o ch : String) (h : ';' ∉ o.data) :
    frameOptions (mkFrame o ch) = o := by
  unfold frameOptions
  simp only [String.toList]
  rw [mkFrame_data]
  rw [show ('\x1b' :: '_' :: 'G' :: (o.data ++ ';' :: (ch.data ++ ['\x1b', '\\']))).drop 3
        = o.data ++ ';' :: (ch.data ++ ['\x1b', '\\']) from rfl]
  rw [takeWhile_ne_semi _ _ h]
  exact rfl

theorem frameMFlag_mkFrame (o ch : String) (h : ';' ∉ o.data) :
    frameMFlag (mkFrame o ch) = mFlagOfOpts o.data := by
  unfold frameMFlag
  rw [frameOptions_mkFrame o ch h]
  rfl

theorem mFlagOfOpts_append_m1 (o : String) :
    mFlagOfOpts (o ++ ",m=1").data = some '1' := by
  unfold mFlagOfOpts
  rw [show (o ++ ",m=1").data = o.data ++ [',', 'm', '=', '1'] by simp,
    List.reverse_append]
  rfl

theorem semi_not_mem_append_m1 (o : String) (h : ';' ∉ o.data) :
    ';' ∉ (o ++ ",m=1").data := by
  rw [show (o ++ ",m=1").data = o.data ++ [',', 'm', '=', '1'] by simp]
  simp [h]

theorem frameMFlag_m1 (ch : String) :
    frameMFlag (mkFrame ("m=" ++ "1") ch) = some '1' := by
  rw [frameMFlag_mkFrame _ ch (by decide)]
  rfl

theorem frameMFlag_m0 (ch : String) :
    frameMFlag (mkFrame ("m=" ++ "0") ch) = some '0' := by
  rw [frameMFlag_mkFrame _ ch (by decide)]
  rfl

theorem join_data_cons (s : String) (l : List String) :
    (String.join (s :: l)).data = s.data ++ (String.join l).data := by
  simp [String.data_join]

theorem asString_data (l : List Char) : (l.asString).data = l :=
  List.toList_asString l

/-- The continuation frames of a nonempty payload remainder `r`: their chunks
concatenate back to `r`, every chunk fits the chunk size, all frames but the
last carry `m=1`, and the last carries `m=0`. -/
theorem restFrames_split (c : Nat) (hc : 0 < c) :
    ∀ (n : Nat) (r : List Char), r.length ≤ n → r ≠ [] →
      ∃ fs₀ lastf, restFrames c r = fs₀ ++ [lastf]
        ∧ (String.join ((fs₀ ++ [lastf]).map frameChunk)).data = r
        ∧ (∀ f ∈ fs₀ ++ [lastf], (frameChunk f).length ≤ c)
        ∧ (∀ f ∈ fs₀, frameMFlag f = some '1')
        ∧ frameMFlag lastf = some '0' := by
  obtain ⟨c₀, rfl⟩ : ∃ c₀, c = c₀ + 1 := ⟨c - 1, by omega⟩
  intro n
  induction n with
  | zero =>
    intro r h hne
    exact absurd (List.length_eq_zero.mp (Nat.le_zero.mp h)) hne
  | succ n ih =>
    intro r hlen hne
    match r with
    | ch :: rest =>
      rw [restFrames_cons]
      simp only [Nat.add_sub_cancel]
      by_cases hlt : c₀ + 1 < (ch :: rest).length
      · rw [if_pos hlt]
        have hdne : rest.drop c₀ ≠ [] := by
          intro hnil
          have := List.drop_eq_nil_iff.mp hnil
          simp only [List.length_cons] at hlt
          omega
        have hdlen : (rest.drop c₀).length ≤ n := by
          simp only [List.length_drop]
          simp only [List.length_cons] at hlen
          omega
        obtain ⟨fs₀, lastf, heq, hjoin, hbound, hm1, hm0⟩ := ih (rest.drop c₀) hdlen hdne
        refine ⟨mkFrame ("m=" ++ "1") ((ch :: rest).take (c₀ + 1)).asString :: fs₀,
          lastf, by rw [heq, List.cons_append], ?_, ?_, ?_, hm0⟩
        · rw [List.cons_append, List.map_cons, join_data_cons,
            frameChunk_mkFrame _ _ (by decide), hjoin, asString_data]
          rw [show rest.drop c₀ = (ch :: rest).drop (c₀ + 1) from rfl]
          exact List.take_append_drop (c₀ + 1) (ch :: rest)
        · intro f hf
          rcases List.mem_cons.mp hf with hf | hf
          · subst hf
            rw [frameChunk_mkFrame _ _ (by decide), List.length_asString,
              List.length_take]
            omega
          · exact hbound f hf
        · intro f hf
          rcases List.mem_cons.mp hf with hf | hf
          · subst hf
            exact frameMFlag_m1 _
          · exact hm1 f hf
      · rw [if_neg hlt]
        simp only [List.length_cons, Nat.not_lt] at hlt
        have hdnil : rest.drop c₀ = [] :=
          List.drop_eq_nil_of_le (by omega)
        rw [hdnil]
        refine ⟨[], mkFrame ("m=" ++ "0") ((ch :: rest).take (c₀ + 1)).asString,
          rfl, ?_, ?_, by intro f hf; simp at hf, frameMFlag_m0 _⟩
        · rw [List.nil_append, List.map_cons, join_data_cons,
            frameChunk_mkFrame _ _ (by decide), asString_data]
          simp only [List.map_nil]
          rw [show (String.join []).data = [] from rfl, List.append_nil]
          exact List.take_of_length_le (by simp only [List.length_cons]; omega)
        · intro f hf
          simp only [List.nil_append, List.mem_singleton] at hf
          subst hf
          rw [frameChunk_mkFrame _ _ (by decide), List.length_asString,
            List.length_take]
          omega

theorem join_singleton (s : String) : String.join [s] = s :=
  String.ext (by simp [String.data_join])

theorem restFrames_eq_nil_iff (c : Nat) (l : List Char) :
    restFrames c l = [] ↔ l = [] := by
  match l with
  | [] => simp [restFrames, restFramesAux]
  | ch :: rest => rw [restFrames_cons]; simp

/-- Every continuation frame carries exactly the option text `m=1`, except
the last, which carries exactly `m=0`. -/
theorem restFrames_shape (c : Nat) (hc : 0 < c) :
    ∀ (n : Nat) (r : List Char), r.length ≤ n → r ≠ [] →
      ∀ i, i < (restFrames c r).length →
        ∃ ch : String, (restFrames c r).get? i =
          some (mkFrame
            ("m=" ++ (if i + 1 < (restFrames c r).length then "1" else "0")) ch) := by
  obtain ⟨c₀, rfl⟩ : ∃ c₀, c = c₀ + 1 := ⟨c - 1, by omega⟩
  intro n
  induction n with
  | zero =>
    intro r h hne
    exact absurd (List.length_eq_zero.mp (Nat.le_zero.mp h)) hne
  | succ n ih =>
    intro r hlen hne
    match r with
    | hd :: rest =>
      simp only [restFrames_cons, Nat.add_sub_cancel]
      intro i h
      match i with
      | 0 =>
        rw [List.get?_cons_zero]
        by_cases hc2 : c₀ < rest.length
        · rw [if_pos (by simp only [List.length_cons]; omega)]
          rw [if_pos (by
            simp only [List.length_cons, Nat.lt_add_one_iff, Nat.succ_le_iff,
              List.length_pos]
            rw [Ne, restFrames_eq_nil_iff, List.drop_eq_nil_iff]
            omega)]
          exact ⟨_, rfl⟩
        · rw [if_neg (by simp only [List.length_cons]; omega)]
          rw [if_neg (by
            simp only [List.length_cons, Nat.lt_add_one_iff, Nat.succ_le_iff,
              List.length_pos]
            rw [Ne, restFrames_eq_nil_iff, List.drop_eq_nil_iff, not_not]
            omega)]
          exact ⟨_, rfl⟩
      | i + 1 =>
        have hlt : i < (restFrames (c₀ + 1) (rest.drop c₀)).length := by
          simp only [List.length_cons] at h
          omega
        have hdne : rest.drop c₀ ≠ [] := by
          rw [Ne, ← restFrames_eq_nil_iff (c₀ + 1)]
          intro hnil
          rw [hnil] at hlt
          simp at hlt
        have hdlen : (rest.drop c₀).length ≤ n := by
          simp only [List.length_drop]
          simp only [List.length_cons] at hlen
          omega
        obtain ⟨ch, hch⟩ := ih (rest.drop c₀) hdlen hdne i hlt
        refine ⟨ch, ?_⟩
        rw [List.get?_cons_succ, hch]
        congr 3
        simp only [List.length_cons]
        by_cases hc3 : i + 1 < (restFrames (c₀ + 1) (rest.drop c₀)).length
        · rw [if_pos hc3, if_pos (by omega)]
        · rw [if_neg hc3, if_neg (by omega)]

/-! ## Claim theorems for the frame encoder -/

/-- C1.  For every payload `P` and chunk size `C > 0`, `construct_KGP` /
`_format_KGP` produces an ordered list of frames whose chunks (the text
between `;` and the closing APC bytes, options stripped) concatenate back to
`P`, no chunk longer than `C`; exactly one frame carries `m=0` and it is the
last (a single frame carries no explicit `m` and counts as the terminal
frame); payload `"ABCDEFGHIJ"` with `C = 4` yields exactly the chunks
`"ABCD"` (m=1), `"EFGH"` (m=1), `"IJ"` (m=0).  The hypotheses on
`options_str` say that the caller's option string contains no `;` and no
trailing `m=` key, true of every string `_gen_options` produces. -/
theorem construct_KGP_chunks_roundtrip (payload options_str : String)
    (chunk_size : Int) (hc : 0 < chunk_size)
    (hsemi : ';' ∉ options_str.data)
    (hm : mFlagOfOpts options_str.data = none) :
    ∃ fs, construct_KGP options_str payload chunk_size = .ok fs
      ∧ String.join (fs.map frameChunk) = payload
      ∧ (∀ f ∈ fs, ((frameChunk f).length : Int) ≤ chunk_size)
      ∧ (∀ f ∈ fs.dropLast, frameMFlag f ≠ some '0')
      ∧ (∃ lastf, fs.getLast? = some lastf
          ∧ (frameMFlag lastf = some '0'
             ∨ (fs.length = 1 ∧ frameMFlag lastf = none)))
      ∧ ((format_KGP "ABCDEFGHIJ" "i=1,a=T" 4).map frameChunk
            = ["ABCD", "EFGH", "IJ"]
         ∧ (format_KGP "ABCDEFGHIJ" "i=1,a=T" 4).map frameMFlag
            = [some '1', some '1', some '0']) := by
  have hcn : 0 < chunk_size.toNat := by omega
  refine ⟨format_KGP payload options_str chunk_size.toNat, ?_, ?_⟩
  · unfold construct_KGP
    rw [if_neg (by omega)]
  unfold format_KGP
  by_cases hfit : payload.length ≤ chunk_size.toNat
  · rw [if_pos hfit]
    refine ⟨?_, ?_, ?_, ?_, by decide, by decide⟩
    · rw [List.map_cons, List.map_nil, join_singleton,
        frameChunk_mkFrame _ _ hsemi]
    · intro f hf
      simp only [List.mem_singleton] at hf
      subst hf
      rw [frameChunk_mkFrame _ _ hsemi]
      omega
    · intro f hf
      simp at hf
    · refine ⟨mkFrame options_str payload, by simp, Or.inr ⟨by simp, ?_⟩⟩
      rw [frameMFlag_mkFrame _ _ hsemi, hm]
  · rw [if_neg hfit]
    have hdne : payload.toList.drop chunk_size.toNat ≠ [] := by
      rw [Ne, List.drop_eq_nil_iff]
      show ¬ payload.data.length ≤ chunk_size.toNat
      exact fun hh => hfit hh
    obtain ⟨fs₀, lastf, heq, hjoin, hbound, hm1, hm0⟩ :=
      restFrames_split chunk_size.toNat hcn (payload.toList.drop chunk_size.toNat).length
        (payload.toList.drop chunk_size.toNat) le_rfl hdne
    rw [heq]
    have hsemi1 : ';' ∉ (options_str ++ ",m=1").data :=
      semi_not_mem_append_m1 options_str hsemi
    refine ⟨?_, ?_, ?_, ?_, by decide, by decide⟩
    · apply String.ext
      rw [show mkFrame (options_str ++ ",m=1")
            (payload.toList.take chunk_size.toNat).asString :: (fs₀ ++ [lastf])
          = (mkFrame (options_str ++ ",m=1")
              (payload.toList.take chunk_size.toNat).asString :: fs₀) ++ [lastf]
          from rfl]
      rw [show (mkFrame (options_str ++ ",m=1")
              (payload.toList.take chunk_size.toNat).asString :: fs₀) ++ [lastf]
          = mkFrame (options_str ++ ",m=1")
              (payload.toList.take chunk_size.toNat).asString :: (fs₀ ++ [lastf])
          from rfl]
      rw [List.map_cons, join_data_cons, frameChunk_mkFrame _ _ hsemi1,
        hjoin, asString_data]
      exact List.take_append_drop chunk_size.toNat payload.data
    · intro f hf
      rcases List.mem_cons.mp hf with hf | hf
      · subst hf
        rw [frameChunk_mkFrame _ _ hsemi1, List.length_asString,
          List.length_take]
        omega
      · have := hbound f hf
        omega
    · intro f hf
      rw [show mkFrame (options_str ++ ",m=1")
            (payload.toList.take chunk_size.toNat).asString :: (fs₀ ++ [lastf])
          = (mkFrame (options_str ++ ",m=1")
              (payload.toList.take chunk_size.toNat).asString :: fs₀) ++ [lastf]
          from rfl, List.dropLast_concat] at hf
      rcases List.mem_cons.mp hf with hf | hf
      · subst hf
        rw [frameMFlag_mkFrame _ _ hsemi1, mFlagOfOpts_append_m1]
        decide
      · rw [hm1 f hf]
        decide
    · refine ⟨lastf, ?_, Or.inl hm0⟩
      rw [show mkFrame (options_str ++ ",m=1")
            (payload.toList.take chunk_size.toNat).asString :: (fs₀ ++ [lastf])
          = (mkFrame (options_str ++ ",m=1")
              (payload.toList.take chunk_size.toNat).asString :: fs₀) ++ [lastf]
          from rfl]
      exact List.getLast?_concat _

/-- C1 witness: the claim's own example, payload `"ABCDEFGHIJ"` with
chunk size 4 and the option string `"i=1,a=T"`. -/
theorem construct_KGP_chunks_roundtrip_witness :
    (0 : Int) < 4 ∧ (';' ∉ ("i=1,a=T" : String).data)
      ∧ mFlagOfOpts ("i=1,a=T" : String).data = none
      ∧ ∃ fs, construct_KGP "i=1,a=T" "ABCDEFGHIJ" 4 = .ok fs
          ∧ String.join (fs.map frameChunk) = "ABCDEFGHIJ"
          ∧ (∀ f ∈ fs, ((frameChunk f).length : Int) ≤ 4) := by
  refine ⟨by decide, by decide, by decide, ?_⟩
  obtain ⟨fs, hok, hjoin, hbound, -⟩ :=
    construct_KGP_chunks_roundtrip "ABCDEFGHIJ" "i=1,a=T" 4
      (by decide) (by decide) (by decide)
  exact ⟨fs, hok, hjoin, hbound⟩

/-- C7.  With chunk size `C > 0`: a payload of at most `C` characters is
emitted as the single frame `ESC _ G <options> ; <payload> ESC \` (that
string is `mkFrame options_str payload` by definition); otherwise the first
frame is `ESC _ G <options>,m=1 ; <first chunk> ESC \` and every following
frame carries exactly the option text `m=1` — `m=0` on the last — so no
non-`m` key ever appears after the first frame. -/
theorem format_KGP_frame_shapes (payload options_str : String)
    (chunk_size : Nat) (hc : 0 < chunk_size) :
    (payload.length ≤ chunk_size →
      format_KGP payload options_str chunk_size = [mkFrame options_str payload])
    ∧ (chunk_size < payload.length →
      ∃ rest, format_KGP payload options_str chunk_size
          = mkFrame (options_str ++ ",m=1")
              ((payload.toList.take chunk_size).asString) :: rest
        ∧ rest ≠ []
        ∧ (∀ i, i < rest.length → ∃ ch, rest.get? i =
            some (mkFrame
              ("m=" ++ (if i + 1 < rest.length then "1" else "0")) ch))) := by
  constructor
  · intro hfit
    unfold format_KGP
    rw [if_pos hfit]
  · intro hlong
    have hlp : payload.length = payload.toList.length := rfl
    unfold format_KGP
    rw [if_neg (by omega)]
    refine ⟨restFrames chunk_size (payload.toList.drop chunk_size), rfl, ?_, ?_⟩
    · rw [Ne, restFrames_eq_nil_iff, List.drop_eq_nil_iff]
      omega
    · intro i hi
      apply restFrames_shape chunk_size hc
        (payload.toList.drop chunk_size).length _ le_rfl _ i hi
      rw [Ne, List.drop_eq_nil_iff]
      omega

/-- C7 witness: the short payload `"AB"` fits into one frame with chunk size
4; the long payload `"ABCDEFGHIJ"` is split with only `m` keys after the
first frame. -/
theorem format_KGP_frame_shapes_witness :
    (0 < 4 ∧ ("AB" : String).length ≤ 4
      ∧ format_KGP "AB" "i=1,a=T" 4 = [mkFrame "i=1,a=T" "AB"])
    ∧ (4 < ("ABCDEFGHIJ" : String).length
      ∧ ∃ rest, format_KGP "ABCDEFGHIJ" "i=1,a=T" 4
          = mkFrame ("i=1,a=T" ++ ",m=1")
              ((("ABCDEFGHIJ" : String).toList.take 4).asString) :: rest
        ∧ rest ≠ []
        ∧ (∀ i, i < rest.length → ∃ ch, rest.get? i =
            some (mkFrame
              ("m=" ++ (if i + 1 < rest.length then "1" else "0")) ch))) := by
  constructor
  · exact ⟨by decide, by decide,
      (format_KGP_frame_shapes "AB" "i=1,a=T" 4 (by decide)).1 (by decide)⟩
  · exact ⟨by decide,
      (format_KGP_frame_shapes "ABCDEFGHIJ" "i=1,a=T" 4 (by decide)).2 (by decide)⟩

/-- C8.  For every chunk size `C ≤ 0` and every payload and option string,
`construct_KGP` raises `ValueError("Chunk size must be a positive
integer.")` and produces no frames; the result is this error for *every*
option string and payload, i.e. the rejection does not depend on them. -/
theorem construct_KGP_rejects_nonpositive (options_str payload : String)
    (chunk_size : Int) (hc : chunk_size ≤ 0) :
    construct_KGP options_str payload chunk_size
      = .error "Chunk size must be a positive integer."
    ∧ ∀ fs, construct_KGP options_str payload chunk_size ≠ .ok fs := by
  refine ⟨?_, ?_⟩
  · unfold construct_KGP
    rw [if_pos hc]
  · intro fs
    unfold construct_KGP
    rw [if_pos hc]
    exact fun hh => by injection hh

/-- C9.  For every `image_id ∈ [0, 0xFFFFFF]`, every Unicode-placeholder row
starts with the true-color foreground escape carrying exactly the bytes
`R = (id>>16)&0xFF`, `G = (id>>8)&0xFF`, `B = id&0xFF`; recombining
`(R<<16)|(G<<8)|B` reproduces `image_id`; and `image_id = 0x1A2B3C` yields
`R = 0x1A`, `G = 0x2B`, `B = 0x3C`. -/
theorem unicode_color_encodes_id (image_id display_rows display_cols : Nat)
    (hid : image_id ≤ 0xFFFFFF) :
    (((image_id >>> 16) &&& 0xFF) <<< 16
        ||| (((image_id >>> 8) &&& 0xFF) <<< 8 ||| (image_id &&& 0xFF))
      = image_id)
    ∧ ((construct_unicode_placeholders image_id display_rows display_cols).length
        = display_rows)
    ∧ (∀ line ∈ construct_unicode_placeholders image_id display_rows display_cols,
        ∃ rest, line =
          "\x1b[38;2;" ++ toString ((image_id >>> 16) &&& 0xFF) ++ ";"
            ++ toString ((image_id >>> 8) &&& 0xFF) ++ ";"
            ++ toString (image_id &&& 0xFF) ++ "m" ++ rest)
    ∧ ((0x1A2B3C >>> 16) &&& 0xFF = 0x1A
        ∧ (0x1A2B3C >>> 8) &&& 0xFF = 0x2B
        ∧ (0x1A2B3C : Nat) &&& 0xFF = 0x3C) := by
  refine ⟨?_, ?_, ?_, by decide, by decide, by decide⟩
  · apply Nat.eq_of_testBit_eq
    intro i
    simp only [Nat.testBit_lor, Nat.testBit_shiftLeft, Nat.testBit_and,
      Nat.testBit_shiftRight, show (0xFF : Nat) = 2 ^ 8 - 1 from rfl,
      Nat.testBit_two_pow_sub_one]
    by_cases h1 : i < 8
    · simp [h1, show ¬ 16 ≤ i by omega, show ¬ 8 ≤ i by omega]
    · by_cases h2 : i < 16
      · simp [h1, h2, show ¬ 16 ≤ i by omega, show 8 ≤ i by omega,
          show 8 + (i - 8) = i by omega, show i - 8 < 8 by omega]
      · by_cases h3 : i < 24
        · simp [show 16 ≤ i by omega, show 8 ≤ i by omega,
            show 16 + (i - 16) = i by omega, show i - 16 < 8 by omega,
            show ¬ i - 8 < 8 by omega]
        · have hfalse : image_id.testBit i = false :=
            Nat.testBit_lt_two_pow
              (by calc image_id ≤ 0xFFFFFF := hid
                    _ < 2 ^ 24 := by norm_num
                    _ ≤ 2 ^ i := Nat.pow_le_pow_right (by norm_num) (by omega))
          simp [hfalse, show 16 ≤ i by omega, show 8 ≤ i by omega,
            show ¬ i - 16 < 8 by omega, show ¬ i - 8 < 8 by omega]
  · simp [construct_unicode_placeholders]
  · intro line hl
    simp only [construct_unicode_placeholders, List.mem_map] at hl
    obtain ⟨i, -, rfl⟩ := hl
    refine ⟨(KGP_PLACEHOLDER ++ (KGP_DIACRITICS.getD i ' ').toString
              ++ (KGP_DIACRITICS.getD 0 ' ').toString)
        ++ (String.join (List.replicate (display_cols - 1) KGP_PLACEHOLDER)
              ++ "\x1b[39m"), ?_⟩
    apply String.ext
    simp only [String.data_append, List.append_assoc]

/-- C9 witness: the claim's example `image_id = 0x1A2B3C` on a 2×3 grid. -/
theorem unicode_color_encodes_id_witness :
    (0x1A2B3C : Nat) ≤ 0xFFFFFF
      ∧ (((0x1A2B3C >>> 16) &&& 0xFF) <<< 16
          ||| ((((0x1A2B3C : Nat) >>> 8) &&& 0xFF) <<< 8
                ||| ((0x1A2B3C : Nat) &&& 0xFF))
        = 0x1A2B3C)
      ∧ (construct_unicode_placeholders 0x1A2B3C 2 3).length = 2 :=
  ⟨by decide,
   (unicode_color_encodes_id 0x1A2B3C 2 3 (by decide)).1,
   (unicode_color_encodes_id 0x1A2B3C 2 3 (by decide)).2.1⟩

/-- C8 witness: chunk sizes `0` and `-3` are rejected. -/
theorem construct_KGP_rejects_nonpositive_witness :
    ((0 : Int) ≤ 0
      ∧ construct_KGP "i=1" "hello" 0
          = .error "Chunk size must be a positive integer.")
    ∧ ((-3 : Int) ≤ 0
      ∧ construct_KGP "i=1" "hello" (-3)
          = .error "Chunk size must be a positive integer.") :=
  ⟨⟨by decide, (construct_KGP_rejects_nonpositive "i=1" "hello" 0 (by decide)).1⟩,
   ⟨by decide, (construct_KGP_rejects_nonpositive "i=1" "hello" (-3) (by decide)).1⟩⟩

/-! ## Claim theorems for the query engine's mode handling (C4) -/

/-- C4.  Every capability probe restores the saved terminal mode on every
exit path: the last `tcsetattr` write is always the pre-probe mode (and on
tty paths the write sequence is exactly raw-then-restore); no controlling
terminal resolves to `false`; an exception inside the read loop (a failing
`os.read`) also resolves to `false` — `do_query` is a total function, no
exception reaches its caller. -/
theorem do_query_restores_mode (t : Terminal)
    (expected fence : String → Bool) :
    ((do_query t expected fence).2.getLastD t.mode = t.mode)
    ∧ (t.hasTTY = true →
        (do_query t expected fence).2 = [rawOf t.mode, t.mode])
    ∧ (t.hasTTY = false → (do_query t expected fence).1 = false)
    ∧ (queryLoop expected fence t.events "" false = .error () →
        (do_query t expected fence).1 = false) := by
  refine ⟨?_, ?_, ?_, ?_⟩
  · unfold do_query
    cases ht : t.hasTTY
    · simp
    · cases hq : queryLoop expected fence t.events "" false <;> simp
  · intro ht
    unfold do_query
    rw [if_pos (by rw [ht])]
    cases hq : queryLoop expected fence t.events "" false <;> rfl
  · intro ht
    unfold do_query
    rw [if_neg (by simp [ht])]
  · intro he
    unfold do_query
    rw [he]
    cases t.hasTTY <;> simp

/-- C4 witness: a probe whose read raises restores mode 5 and answers
`false`; a probe without a controlling terminal answers `false`. -/
theorem do_query_restores_mode_witness :
    (queryLoop (expectedMatch 7) fenceMatch [ReadEvent.rerr] "" false
        = .error ())
    ∧ ((do_query ⟨true, 5, [ReadEvent.rerr]⟩
          (expectedMatch 7) fenceMatch).2.getLastD 5 = 5)
    ∧ ((do_query ⟨true, 5, [ReadEvent.rerr]⟩
          (expectedMatch 7) fenceMatch).1 = false)
    ∧ ((do_query ⟨false, 5, []⟩ (expectedMatch 7) fenceMatch).1 = false) :=
  ⟨rfl,
   (do_query_restores_mode ⟨true, 5, [ReadEvent.rerr]⟩
      (expectedMatch 7) fenceMatch).1,
   (do_query_restores_mode ⟨true, 5, [ReadEvent.rerr]⟩
      (expectedMatch 7) fenceMatch).2.2.2 rfl,
   (do_query_restores_mode ⟨false, 5, []⟩
      (expectedMatch 7) fenceMatch).2.2.1 rfl⟩

/-! ## Claim theorems for the medium fallback (C5, C6) -/

/-- C5.  `_init_medium` abstractly over the creation behaviour: if the
configured medium's creation succeeds there is no fallback (one attempt,
that medium); if it fails with a medium-creation error there is exactly one
retry with the direct (Inline) medium `"d"`; if that second creation also
fails, a fatal error is raised. -/
theorem init_medium_fallback (create : String → Except Unit MediumKind)
    (medium : String) :
    (∀ m, create medium = .ok m →
      init_medium create medium = (.ok m, [medium]))
    ∧ (∀ m, create medium = .error () → create "d" = .ok m →
        init_medium create medium = (.ok m, [medium, "d"]))
    ∧ (create medium = .error () → create "d" = .error () →
        init_medium create medium = (.error (), [medium, "d"])) := by
  refine ⟨?_, ?_, ?_⟩
  · intro m h
    simp [init_medium, h]
  · intro m h1 h2
    simp [init_medium, h1, h2]
  · intro h1 h2
    simp [init_medium, h1, h2]

/-- C5 witness: with failing shared memory, `"s"` falls back to the direct
medium once; with a creation behaviour that always fails, the second failure
is fatal; with a healthy OS, `"s"` succeeds with no fallback. -/
theorem init_medium_fallback_witness :
    (KGPMedium_create ⟨true, false⟩ "s" = .error ()
      ∧ KGPMedium_create ⟨true, false⟩ "d" = .ok .direct
      ∧ init_medium (KGPMedium_create ⟨true, false⟩) "s"
          = (.ok .direct, ["s", "d"]))
    ∧ ((fun _ => (.error () : Except Unit MediumKind)) "s" = .error ()
      ∧ init_medium (fun _ => (.error () : Except Unit MediumKind)) "s"
          = (.error (), ["s", "d"]))
    ∧ (KGPMedium_create ⟨false, false⟩ "s" = .ok .shared
      ∧ init_medium (KGPMedium_create ⟨false, false⟩) "s"
          = (.ok .shared, ["s"])) :=
  ⟨⟨rfl, rfl, (init_medium_fallback (KGPMedium_create ⟨true, false⟩) "s").2.1
      .direct rfl rfl⟩,
   ⟨rfl, (init_medium_fallback (fun _ => .error ()) "s").2.2 rfl rfl⟩,
   ⟨rfl, (init_medium_fallback (KGPMedium_create ⟨false, false⟩) "s").1
      .shared rfl⟩⟩

/-- C6 counterexample: requesting the unknown medium name `"x"` is *not*
fatal at the encoder level and a medium *is* created — `KGPMedium.create`
raises `KGPMediumCreationError` for it, `_init_medium` catches exactly that
error class and retries with the direct medium, which succeeds. -/
theorem unknown_medium_not_fatal :
    init_medium (KGPMedium_create ⟨false, false⟩) "x"
      = (.ok .direct, ["x", "d"])
    ∧ (init_medium (KGPMedium_create ⟨false, false⟩) "x").1 ≠ .error () :=
  ⟨rfl, fun h => by simp [init_medium, KGPMedium_create] at h⟩

/-- C6 amended: an unknown medium name makes `KGPMedium.create` raise a
medium-creation error (no medium of that kind is created), but
`_init_medium` catches this error like any creation failure and recovers
via the Inline fallback, creating a direct medium; it is fatal only when
that fallback fails too. -/
theorem unknown_medium_create_error_recovered (env : MediumEnv)
    (medium : String) (h : medium ∉ (["d", "s", "t"] : List String)) :
    KGPMedium_create env medium = .error ()
    ∧ init_medium (KGPMedium_create env) medium
        = (.ok .direct, [medium, "d"]) := by
  simp only [List.mem_cons, not_or] at h
  have hc : KGPMedium_create env medium = .error () := by
    unfold KGPMedium_create
    rw [if_neg (by simpa using h.1), if_neg (by simpa using h.2.1),
      if_neg (by simpa using h.2.2.1)]
  refine ⟨hc, ?_⟩
  unfold init_medium
  rw [hc]
  simp [KGPMedium_create]

/-! ## Claim theorem for the shared-memory segment algorithm (C3) -/

/-- C3.  The bounded two-attempt creation algorithm of
`KGPMediumSharedMemory.__init__`, on a namespace `sys₀` with the segment
name free: (a) a fresh create makes a segment of capacity `len d₁` holding
`d₁`; (b) a second create for the same id with data `d₂` of equal-or-smaller
size succeeds without error, overwriting the first `len d₂` bytes and
keeping the capacity; (c) a create when the existing segment's capacity is
below `len d₃` first closes and unlinks the stale segment — it is then no
longer present under that name — and creates a fresh one holding `d₃`;
(d) when both attempts are exhausted (concurrent interference re-creating a
too-small segment between the attempts), the medium-creation error is
raised. -/
theorem sharedSegment_two_attempt (image_id : Nat) (d₁ d₂ d₃ : List Nat)
    (seg₀ : Seg) (sys₀ : ShmSys)
    (h₀ : sys₀ (shm_name image_id) = none) :
    (sharedMemoryInit image_id d₁ id id id id sys₀
        = .ok (shmSet sys₀ (shm_name image_id) ⟨d₁.length, d₁⟩))
    ∧ (d₂.length ≤ d₁.length →
        sharedMemoryInit image_id d₂ id id id id
            (shmSet sys₀ (shm_name image_id) ⟨d₁.length, d₁⟩)
          = .ok (shmSet (shmSet sys₀ (shm_name image_id) ⟨d₁.length, d₁⟩)
              (shm_name image_id) ⟨d₁.length, d₂ ++ d₁.drop d₂.length⟩))
    ∧ (d₁.length < d₃.length →
        shmAttempt (shm_name image_id) d₃ id
            (shmSet sys₀ (shm_name image_id) ⟨d₁.length, d₁⟩)
          = .retry (shmErase
              (shmSet sys₀ (shm_name image_id) ⟨d₁.length, d₁⟩)
              (shm_name image_id))
        ∧ shmErase (shmSet sys₀ (shm_name image_id) ⟨d₁.length, d₁⟩)
            (shm_name image_id) (shm_name image_id) = none
        ∧ sharedMemoryInit image_id d₃ id id id id
            (shmSet sys₀ (shm_name image_id) ⟨d₁.length, d₁⟩)
          = .ok (shmSet
              (shmErase (shmSet sys₀ (shm_name image_id) ⟨d₁.length, d₁⟩)
                (shm_name image_id))
              (shm_name image_id) ⟨d₃.length, d₃⟩))
    ∧ (seg₀.size < d₁.length →
        sharedMemoryInit image_id d₁
            id id (fun s => shmSet s (shm_name image_id) seg₀) id
            (shmSet sys₀ (shm_name image_id) seg₀)
          = .error ()) := by
  have hset : ∀ (sys : ShmSys) (seg : Seg),
      shmSet sys (shm_name image_id) seg (shm_name image_id) = some seg := by
    intro sys seg
    simp [shmSet]
  have herase : ∀ (sys : ShmSys),
      shmErase sys (shm_name image_id) (shm_name image_id) = none := by
    intro sys
    simp [shmErase]
  refine ⟨?_, ?_, ?_, ?_⟩
  · unfold sharedMemoryInit shmAttempt
    simp only [id_eq, h₀]
  · intro hle
    unfold sharedMemoryInit shmAttempt
    simp only [id_eq, hset]
    rw [if_neg (by omega)]
  · intro hlt
    refine ⟨?_, herase _, ?_⟩
    · unfold shmAttempt
      simp only [id_eq, hset]
      rw [if_pos hlt]
    · unfold sharedMemoryInit shmAttempt
      simp only [id_eq, hset, herase]
      rw [if_pos hlt]
      simp only [herase]
  · intro hsm
    unfold sharedMemoryInit shmAttempt
    simp only [id_eq, hset]
    rw [if_pos hsm]
    simp only [herase, hset]
    rw [if_pos hsm]

/-- C3 witness: id 1, a fresh create of `[1,2,3]`, a reuse with `[9,9]`, a
stale collision with `[1,2,3,4]`, and an exhaustion run against interference
reinstating the too-small segment `⟨1, [0]⟩`. -/
theorem sharedSegment_two_attempt_witness :
    ((fun _ => none : ShmSys) (shm_name 1) = none)
    ∧ (sharedMemoryInit 1 [1, 2, 3] id id id id (fun _ => none)
        = .ok (shmSet (fun _ => none) (shm_name 1) ⟨3, [1, 2, 3]⟩))
    ∧ (([9, 9] : List Nat).length ≤ ([1, 2, 3] : List Nat).length
        ∧ sharedMemoryInit 1 [9, 9] id id id id
            (shmSet (fun _ => none) (shm_name 1) ⟨3, [1, 2, 3]⟩)
          = .ok (shmSet (shmSet (fun _ => none) (shm_name 1) ⟨3, [1, 2, 3]⟩)
              (shm_name 1)
              ⟨3, [9, 9] ++ ([1, 2, 3] : List Nat).drop ([9, 9] : List Nat).length⟩))
    ∧ (([1, 2, 3] : List Nat).length < ([1, 2, 3, 4] : List Nat).length
        ∧ shmErase (shmSet (fun _ => none) (shm_name 1) ⟨3, [1, 2, 3]⟩)
            (shm_name 1) (shm_name 1) = none)
    ∧ ((⟨1, [0]⟩ : Seg).size < ([1, 2, 3] : List Nat).length
        ∧ sharedMemoryInit 1 [1, 2, 3]
            id id (fun s => shmSet s (shm_name 1) ⟨1, [0]⟩) id
            (shmSet (fun _ => none) (shm_name 1) ⟨1, [0]⟩)
          = .error ()) :=
  ⟨rfl,
   (sharedSegment_two_attempt 1 [1, 2, 3] [9, 9] [1, 2, 3, 4] ⟨1, [0]⟩
      (fun _ => none) rfl).1,
   ⟨by decide,
    (sharedSegment_two_attempt 1 [1, 2, 3] [9, 9] [1, 2, 3, 4] ⟨1, [0]⟩
      (fun _ => none) rfl).2.1 (by decide)⟩,
   ⟨by decide,
    ((sharedSegment_two_attempt 1 [1, 2, 3] [9, 9] [1, 2, 3, 4] ⟨1, [0]⟩
      (fun _ => none) rfl).2.2.1 (by decide)).2.1⟩,
   ⟨by decide,
    (sharedSegment_two_attempt 1 [1, 2, 3] [9, 9] [1, 2, 3, 4] ⟨1, [0]⟩
      (fun _ => none) rfl).2.2.2 (by decide)⟩⟩

/-! ## Query-engine lemmas (C2, C10) -/

theorem digitChar_ne_lbracket (m : Nat) (hm : m < 10) :
    Nat.digitChar m ≠ '[' := by
  interval_cases m <;> decide

theorem toDigitsCore_ne_lbracket :
    ∀ (fuel n : Nat) (ds : List Char), (∀ c ∈ ds, c ≠ '[') →
      ∀ c ∈ Nat.toDigitsCore 10 fuel n ds, c ≠ '[' := by
  intro fuel
  induction fuel with
  | zero =>
    intro n ds hds c hc
    exact hds c hc
  | succ fuel ih =>
    intro n ds hds c hc
    rw [show Nat.toDigitsCore 10 (fuel + 1) n ds
        = if n / 10 = 0 then Nat.digitChar (n % 10) :: ds
          else Nat.toDigitsCore 10 fuel (n / 10) (Nat.digitChar (n % 10) :: ds)
        from rfl] at hc
    have hd : Nat.digitChar (n % 10) ≠ '[' :=
      digitChar_ne_lbracket _ (Nat.mod_lt n (by decide))
    by_cases hnz : n / 10 = 0
    · rw [if_pos hnz] at hc
      rcases List.mem_cons.mp hc with rfl | hc
      · exact hd
      · exact hds c hc
    · rw [if_neg hnz] at hc
      refine ih (n / 10) _ ?_ c hc
      intro x hx
      rcases List.mem_cons.mp hx with rfl | hx
      · exact hd
      · exact hds x hx

theorem toDigitsCore_length :
    ∀ (fuel n : Nat) (ds : List Char),
      ds.length ≤ (Nat.toDigitsCore 10 fuel n ds).length := by
  intro fuel
  induction fuel with
  | zero =>
    intro n ds
    exact le_rfl
  | succ fuel ih =>
    intro n ds
    rw [show Nat.toDigitsCore 10 (fuel + 1) n ds
        = if n / 10 = 0 then Nat.digitChar (n % 10) :: ds
          else Nat.toDigitsCore 10 fuel (n / 10) (Nat.digitChar (n % 10) :: ds)
        from rfl]
    by_cases hnz : n / 10 = 0
    · rw [if_pos hnz]
      simp
    · rw [if_neg hnz]
      calc ds.length ≤ (Nat.digitChar (n % 10) :: ds).length := by simp
        _ ≤ _ := ih (n / 10) _

theorem repr_ne_lbracket (n : Nat) : '[' ∉ (Nat.repr n).data := by
  intro h
  exact toDigitsCore_ne_lbracket (n + 1) n []
    (by intro c hc; cases hc) '[' h rfl

theorem repr_length_pos (n : Nat) : 1 ≤ (Nat.repr n).data.length := by
  rw [show (Nat.repr n).data = Nat.toDigitsCore 10 (n + 1) n [] from rfl]
  rw [show Nat.toDigitsCore 10 (n + 1) n []
      = if n / 10 = 0 then [Nat.digitChar (n % 10)]
        else Nat.toDigitsCore 10 n (n / 10) [Nat.digitChar (n % 10)]
      from rfl]
  by_cases hnz : n / 10 = 0
  · rw [if_pos hnz]
    simp
  · rw [if_neg hnz]
    calc 1 = ([Nat.digitChar (n % 10)] : List Char).length := rfl
      _ ≤ _ := toDigitsCore_length n (n / 10) _

theorem lbracket_not_mem_expectedPattern (image_id : Nat) :
    '[' ∉ (expectedPattern image_id).data := by
  unfold expectedPattern
  simp only [String.data_append]
  intro hmem
  rcases List.mem_append.mp hmem with h | h
  · rcases List.mem_append.mp h with h | h
    · exact absurd h (by decide)
    · exact repr_ne_lbracket image_id h
  · exact absurd h (by decide)

theorem expectedPattern_length (image_id : Nat) :
    11 ≤ (expectedPattern image_id).data.length := by
  unfold expectedPattern
  simp only [String.data_append, List.length_append]
  have h1 := repr_length_pos image_id
  have h2 : (toString image_id).data.length = (Nat.repr image_id).data.length :=
    rfl
  have h3 : (['\x1b', '_', 'G', 'i', '='] : List Char).length = 5 := rfl
  have h4 : ([';', 'O', 'K', '\x1b', '\\'] : List Char).length = 5 := rfl
  omega

theorem fenceAt_lbracket : ∀ l : List Char, fenceAt l = true → '[' ∈ l := by
  intro l h
  match l with
  | [] => simp [fenceAt] at h
  | [a] => simp [fenceAt] at h
  | [a, b] => simp [fenceAt] at h
  | a :: b :: q :: rest =>
    simp only [fenceAt, Bool.and_eq_true, beq_iff_eq] at h
    obtain ⟨⟨⟨-, rfl⟩, -⟩, -⟩ := h
    simp

theorem fenceMatch_false_of_no_lbracket (s : String) (h : '[' ∉ s.data) :
    fenceMatch s = false := by
  cases hf : fenceMatch s
  · rfl
  · exfalso
    unfold fenceMatch at hf
    rw [List.any_eq_true] at hf
    obtain ⟨t, ht, hat⟩ := hf
    have hsub : t ⊆ s.toList := ((List.mem_tails t s.toList).mp ht).subset
    exact h (hsub (fenceAt_lbracket t hat))

theorem queryLoop_eq_of_no_rerr (expected fence : String → Bool) :
    ∀ (events : List ReadEvent), ReadEvent.rerr ∉ events →
      ∀ (r : String) (succ : Bool),
        queryLoop expected fence events r succ
          = .ok (succ || (responses fence events r).any expected) := by
  intro events
  induction events with
  | nil =>
    intro h r succ
    simp [queryLoop, responses]
  | cons ev rest ih =>
    intro h r succ
    have hrest : ReadEvent.rerr ∉ rest := fun hr => h (List.mem_cons_of_mem _ hr)
    match ev with
    | .timeout => simp [queryLoop, responses]
    | .eof => simp [queryLoop, responses]
    | .rerr => exact absurd (List.mem_cons_self _ _) h
    | .byte c =>
      rw [show queryLoop expected fence (.byte c :: rest) r succ
          = if fence (r.push c) then .ok (succ || expected (r.push c))
            else queryLoop expected fence rest (r.push c)
              (succ || expected (r.push c)) from rfl]
      rw [show responses fence (.byte c :: rest) r
          = if fence (r.push c) then [r.push c]
            else (r.push c) :: responses fence rest (r.push c) from rfl]
      by_cases hfc : fence (r.push c)
      · rw [if_pos hfc, if_pos hfc]
        simp
      · rw [if_neg hfc, if_neg hfc, ih hrest]
        simp [Bool.or_assoc]

theorem responses_length (fence : String → Bool) :
    ∀ (events : List ReadEvent) (r : String) (x : String),
      x ∈ responses fence events r →
        x.data.length ≤ r.data.length + events.length := by
  intro events
  induction events with
  | nil =>
    intro r x hx
    simp [responses] at hx
  | cons ev rest ih =>
    intro r x hx
    match ev with
    | .timeout => simp [responses] at hx
    | .eof => simp [responses] at hx
    | .rerr => simp [responses] at hx
    | .byte c =>
      rw [show responses fence (.byte c :: rest) r
          = if fence (r.push c) then [r.push c]
            else (r.push c) :: responses fence rest (r.push c) from rfl] at hx
      by_cases hfc : fence (r.push c)
      · rw [if_pos hfc] at hx
        simp only [List.mem_singleton] at hx
        subst hx
        simp only [String.data_push, List.length_append, List.length_cons,
          List.length_nil]
        omega
      · rw [if_neg hfc] at hx
        rcases List.mem_cons.mp hx with rfl | hx
        · simp only [String.data_push, List.length_append, List.length_cons,
            List.length_nil]
          omega
        · have := ih (r.push c) x hx
          simp only [String.data_push, List.length_append, List.length_cons,
            List.length_nil] at this
          simp only [List.length_cons]
          omega

theorem full_mem_responses (fence : String → Bool) :
    ∀ (cs : List Char) (tl : List ReadEvent) (r : String), cs ≠ [] →
      (∀ k, fence ((r.data ++ cs.take k).asString) = false) →
      ((r.data ++ cs).asString) ∈ responses fence (cs.map .byte ++ tl) r := by
  intro cs
  induction cs with
  | nil =>
    intro tl r h
    exact absurd rfl h
  | cons c cs ih =>
    intro tl r _ hfence
    rw [show ((c :: cs).map ReadEvent.byte) ++ tl
        = ReadEvent.byte c :: (cs.map .byte ++ tl) from rfl]
    rw [show responses fence (.byte c :: (cs.map .byte ++ tl)) r
        = if fence (r.push c) then [r.push c]
          else (r.push c) :: responses fence (cs.map .byte ++ tl) (r.push c)
        from rfl]
    have hpush : r.push c = ((r.data ++ [c]).asString) := by
      apply String.ext
      simp [String.data_push, asString_data]
    have hf1 : fence (r.push c) = false := by
      rw [hpush]
      have := hfence 1
      simpa using this
    rw [if_neg (by simp [hf1])]
    by_cases hcs : cs = []
    · subst hcs
      rw [show (r.data ++ [c]).asString = r.push c from hpush.symm]
      exact List.mem_cons_self _ _
    · apply List.mem_cons_of_mem
      have hmem := ih tl (r.push c) hcs (fun k => by
        have := hfence (k + 1)
        simpa [String.data_push, List.append_assoc] using this)
      have hdata : r.data ++ c :: cs = (r.push c).data ++ cs := by
        simp [String.data_push]
      rw [hdata]
      exact hmem

/-- Reduce a probe with valid mock data and a successfully created medium to
its `_do_query` call. -/
theorem probe_eq_do_query (menv : MediumEnv) (t : Terminal)
    (medium format : String) (image_id : Nat) (hmk : mockDataOk format = true)
    (m : MediumKind) (hcr : KGPMedium_create menv medium = .ok m) :
    query_transmission_medium_support menv t medium format image_id
      = (do_query t (expectedMatch image_id) fenceMatch).1 := by
  unfold query_transmission_medium_support
  rw [if_pos hmk, hcr]

theorem do_query_ok (mode : Nat) (events : List ReadEvent)
    (expected fence : String → Bool) (b : Bool)
    (h : queryLoop expected fence events "" false = .ok b) :
    (do_query ⟨true, mode, events⟩ expected fence).1 = b := by
  unfold do_query
  simp [h]

/-! ## Claim theorems for the probes (C2, C10) -/

/-- C2.  For every medium in `{d, s, t}` and format in `{24, 32, 100}` on a
healthy OS: a terminal answering the expected acknowledgement
`ESC _ G i=<probed id> ; OK ESC \` within the timeout yields `true`; one
answering only the device-attributes fence `ESC [ ? 6 2 c` yields `false`;
and in general (absent read errors) the result equals whether the success
pattern ever matched the accumulated response. -/
theorem query_probe_result (menv : MediumEnv) (medium format : String)
    (image_id mode : Nat)
    (hm : medium ∈ (["d", "s", "t"] : List String))
    (hf : format ∈ (["32", "24", "100"] : List String))
    (hshm : menv.shmFails = false) (htmp : menv.tmpFails = false) :
    (query_transmission_medium_support menv
        ⟨true, mode, (expectedPattern image_id).toList.map .byte ++ [.timeout]⟩
        medium format image_id = true)
    ∧ (query_transmission_medium_support menv
        ⟨true, mode, ("\x1b[?62c" : String).toList.map .byte ++ [.timeout]⟩
        medium format image_id = false)
    ∧ (∀ events : List ReadEvent, ReadEvent.rerr ∉ events →
        query_transmission_medium_support menv ⟨true, mode, events⟩
            medium format image_id
          = (responses fenceMatch events "").any (expectedMatch image_id)) := by
  have hmk : mockDataOk format = true := by
    simp only [List.mem_cons, List.not_mem_nil, or_false] at hf
    rcases hf with rfl | rfl | rfl <;> rfl
  obtain ⟨m, hcr⟩ : ∃ m, KGPMedium_create menv medium = .ok m := by
    simp only [List.mem_cons, List.not_mem_nil, or_false] at hm
    rcases hm with rfl | rfl | rfl
    · exact ⟨.direct, rfl⟩
    · exact ⟨.shared, by simp [KGPMedium_create, hshm]⟩
    · exact ⟨.tempfile, by simp [KGPMedium_create, htmp]⟩
  have hgen : ∀ events : List ReadEvent, ReadEvent.rerr ∉ events →
      query_transmission_medium_support menv ⟨true, mode, events⟩
          medium format image_id
        = (responses fenceMatch events "").any (expectedMatch image_id) := by
    intro events hre
    rw [probe_eq_do_query menv _ medium format image_id hmk m hcr]
    exact do_query_ok mode events _ _ _
      (by rw [queryLoop_eq_of_no_rerr _ _ events hre "" false, Bool.false_or])
  refine ⟨?_, ?_, hgen⟩
  · rw [hgen _ (by simp)]
    rw [List.any_eq_true]
    refine ⟨expectedPattern image_id, ?_, ?_⟩
    · have hne : (expectedPattern image_id).toList ≠ [] := by
        intro hnil
        have := expectedPattern_length image_id
        rw [show (expectedPattern image_id).data
            = (expectedPattern image_id).toList from rfl, hnil] at this
        simp at this
      have hfence : ∀ k,
          fenceMatch ((("" : String).data
              ++ (expectedPattern image_id).toList.take k).asString) = false := by
        intro k
        apply fenceMatch_false_of_no_lbracket
        rw [asString_data]
        intro hmem
        apply lbracket_not_mem_expectedPattern image_id
        have : (("" : String).data ++ (expectedPattern image_id).toList.take k)
            ⊆ (expectedPattern image_id).toList := by
          simp only [show ("" : String).data = [] from rfl, List.nil_append]
          exact fun x hx => List.take_subset _ _ hx
        exact this hmem
      have := full_mem_responses fenceMatch (expectedPattern image_id).toList
        [.timeout] "" hne hfence
      simpa using this
    · unfold expectedMatch
      exact decide_eq_true List.infix_rfl
  · rw [hgen _ (by simp)]
    rw [List.any_eq_false]
    intro x hx
    have hlen := responses_length fenceMatch _ "" x hx
    simp only [List.length_append, List.length_map, List.length_cons,
      List.length_nil] at hlen
    have hlen2 : x.data.length ≤ 7 := by
      have h6 : ("\x1b[?62c" : String).toList.length = 6 := rfl
      have h0 : ("" : String).data.length = 0 := rfl
      omega
    intro hmatch
    unfold expectedMatch at hmatch
    have hinf := of_decide_eq_true hmatch
    have := hinf.length_le
    have h11 := expectedPattern_length image_id
    have he : (expectedPattern image_id).toList.length
        = (expectedPattern image_id).data.length := rfl
    have hx2 : x.toList.length = x.data.length := rfl
    omega

/-- C2 witness: medium `"d"`, format `"32"`, probed image id 7, a healthy
OS; the echoing terminal yields `true`, the fence-only terminal `false`. -/
theorem query_probe_result_witness :
    ("d" : String) ∈ (["d", "s", "t"] : List String)
    ∧ ("32" : String) ∈ (["32", "24", "100"] : List String)
    ∧ (query_transmission_medium_support ⟨false, false⟩
        ⟨true, 0, (expectedPattern 7).toList.map .byte ++ [.timeout]⟩
        "d" "32" 7 = true)
    ∧ (query_transmission_medium_support ⟨false, false⟩
        ⟨true, 0, ("\x1b[?62c" : String).toList.map .byte ++ [.timeout]⟩
        "d" "32" 7 = false) :=
  ⟨by decide, by decide,
   (query_probe_result ⟨false, false⟩ "d" "32" 7 0
      (by decide) (by decide) rfl rfl).1,
   (query_probe_result ⟨false, false⟩ "d" "32" 7 0
      (by decide) (by decide) rfl rfl).2.1⟩

/-- C10.  The three `"f"`-medium entries of the `query_all` report are
`false` for every terminal, every environment and every drawn image id,
because `KGPMedium.create` cannot construct a medium for kind `"f"` and the
resulting `KGPMediumCreationError` is resolved to a negative probe result. -/
theorem query_all_file_entries_false (env : QEnv) (menv : MediumEnv)
    (tU : Terminal) (idU : Nat) (term : String → String → Terminal)
    (ids : String → String → Nat) :
    KGPMedium_create menv "f" = .error ()
    ∧ (∀ (t : Terminal) (format : String) (image_id : Nat),
        query_transmission_medium_support menv t "f" format image_id = false)
    ∧ ((query_all env menv tU idU term ids).lookup "File Transmission (32bit)"
        = some false)
    ∧ ((query_all env menv tU idU term ids).lookup "File Transmission (24bit)"
        = some false)
    ∧ ((query_all env menv tU idU term ids).lookup "File Transmission (PNG)"
        = some false) := by
  have hcf : KGPMedium_create menv "f" = .error () := by
    simp [KGPMedium_create]
  have hprobe : ∀ (t : Terminal) (format : String) (image_id : Nat),
      query_transmission_medium_support menv t "f" format image_id = false := by
    intro t format image_id
    unfold query_transmission_medium_support
    cases hmk : mockDataOk format
    · simp [hmk]
    · simp [hmk, hcf]
  refine ⟨hcf, hprobe, ?_, ?_, ?_⟩ <;>
    simp [query_all, List.lookup, hprobe]

/-- C6 witness: the unknown name `"x"` with a healthy OS. -/
theorem unknown_medium_create_error_recovered_witness :
    ("x" : String) ∉ (["d", "s", "t"] : List String)
    ∧ KGPMedium_create ⟨false, false⟩ "x" = .error ()
    ∧ init_medium (KGPMedium_create ⟨false, false⟩) "x"
        = (.ok .direct, ["x", "d"]) :=
  ⟨by decide,
   (unknown_medium_create_error_recovered ⟨false, false⟩ "x" (by decide)).1,
   (unknown_medium_create_error_recovered ⟨false, false⟩ "x" (by decide)).2⟩

end Idog
